import Mathlib

/-!
Verification development for the SWAXSanalysis reduction core
(`saxs_nxformat/class_nexus_file.py` and `saxs_nxformat/utils.py`).

The Python code is shallowly embedded: numpy float arrays become lists of
rationals (`List ℚ`), numpy's `sqrt` becomes `Real.sqrt`, HDF5 groups and
datasets become association lists keyed by name, and Python's in-place
mutation of an open file becomes explicit state passing on an `H5Entry`
value.  Each definition is translated from the named source function; the
theorems at the end of the file settle the specification claims against
these definitions.
-/

/-! ## Small string helpers

Python's `str.upper` / `str.lower` restricted to the ASCII names used by the
repository, and Python's substring test (`re.search` with `(?=.*pat)`
lookaheads degenerates to "all patterns occur as substrings"). -/

/-- ASCII model of Python `str.upper`. -/
def strUpper (s : String) : String := ⟨s.data.map Char.toUpper⟩

/-- ASCII model of Python `str.lower`. -/
def strLower (s : String) : String := ⟨s.data.map Char.toLower⟩

/-- Whether `pat` occurs at the head of `s`. -/
def isPre : List Char → List Char → Bool
  | [], _ => true
  | _ :: _, [] => false
  | a :: as, b :: bs => a == b && isPre as bs

/-- Whether `pat` occurs somewhere inside `s`. -/
def hasSub (s pat : List Char) : Bool :=
  match s with
  | [] => pat.isEmpty
  | _ :: t => isPre pat s || hasSub t pat

/-- Python's `pat in s` substring test on strings. -/
def containsSub (s pat : String) : Bool := hasSub s.data pat.data

/-- Python `group_name.removeprefix("DATA_")` as used when deriving the
`PROCESS_...` group name from a `DATA_...` group name. -/
def stripDataTag (s : String) : String :=
  if isPre "DATA_".data s.data then ⟨s.data.drop 5⟩ else s

/-! ## Default radial minimum (`process_radial_average` lines 638-645,
duplicated verbatim in `process_azimuthal_average` lines 766-773) -/

/-- numpy `np.sign` on a scalar (the axes hold real values; the sign is an
integer). -/
def npSign (x : ℚ) : ℤ := if 0 < x then 1 else if x < 0 then -1 else 0

/-- `np.sum(np.sign(qp) + np.sign(qz))`: the element-wise sum of signs of the
two axis arrays, then totalled.  numpy requires the two arrays to have equal
length (otherwise the addition raises), which theorems record as a
`qp.length = qz.length` hypothesis. -/
def zipSignSum (qp qz : List ℚ) : ℤ :=
  (List.zipWith (fun a b => npSign a + npSign b) qp qz).sum

/-- `min(np.abs(xs))` for a nonempty array; 0 for the empty array (numpy
raises there). -/
def minAbs : List ℚ → ℚ
  | [] => 0
  | x :: t => t.foldl (fun m y => min m |y|) |x|

/-- Python `xs[0]` on the axis array. -/
def headQ (xs : List ℚ) : ℚ := xs.headD 0

/-- Python `xs[-1]` on the axis array. -/
def lastQ (xs : List ℚ) : ℚ := xs.getLastD 0

/-- The default radial minimum computed by `process_radial_average`
(class_nexus_file.py lines 638-645); `process_azimuthal_average`
(lines 766-773) computes the identical expression (there it is assigned
directly to `r_min`, see `azimuthal_resolved_r_min`).

Source:
```
if np.sum(np.sign(smi_data.qp) + np.sign(smi_data.qz)) == 0:
    default_r_min = 0
elif np.sign(smi_data.qp[-1]) == np.sign(smi_data.qp[0]):
    default_r_min = np.sqrt(min(np.abs(smi_data.qz)) ** 2)
elif np.sign(smi_data.qz[-1]) == np.sign(smi_data.qz[0]):
    default_r_min = np.sqrt(min(np.abs(smi_data.qp)) ** 2)
else:
    default_r_min = np.sqrt(min(np.abs(smi_data.qp)) ** 2 + min(np.abs(smi_data.qz)) ** 2)
```
-/
noncomputable def default_r_min (qp qz : List ℚ) : ℝ :=
  if zipSignSum qp qz = 0 then 0
  else if npSign (lastQ qp) = npSign (headQ qp) then
    Real.sqrt ((minAbs qz : ℝ) ^ 2)
  else if npSign (lastQ qz) = npSign (headQ qz) then
    Real.sqrt ((minAbs qp : ℝ) ^ 2)
  else
    Real.sqrt ((minAbs qp : ℝ) ^ 2 + (minAbs qz : ℝ) ^ 2)

/-- The `r_min` value that `process_azimuthal_average` actually passes to
`smi_data.azimuthal_averaging` (class_nexus_file.py lines 750-801).

`rmin0` is the caller's argument (`None` encoded as `none`).  The method
records `initial_none_flags["r_min"] = r_min is None`, then *overwrites*
`r_min` with the computed default (lines 766-773), stores that same value in
`defaults["r_min"]`, and finally executes
`if initial_none_flags["r_min"]: r_min = defaults["r_min"]` — so the branch
on the flag assigns the same value in either case. -/
noncomputable def azimuthal_resolved_r_min (rmin0 : Option ℚ) (qp qz : List ℚ) : ℝ :=
  let r_min : ℝ := default_r_min qp qz
  let defaults_r_min : ℝ := r_min
  if rmin0.isNone then defaults_r_min else r_min

/-! ## Metadata extraction (`extract_smi_param`, class_nexus_file.py
lines 84-139) -/

/-- The scalar fields that `extract_smi_param` reads from the open container
(canonical paths `/ENTRY/INSTRUMENT/...`, `/ENTRY/SAMPLE/yaw`). -/
structure ContainerMeta where
  wavelength : ℚ
  sampleYaw : ℚ
  detectorName : String
  detYaw : ℚ
  detPitch : ℚ
  detRoll : ℚ
  beamCenterX : ℚ
  beamCenterY : ℚ
  sdd : ℚ
deriving DecidableEq

/-- The geometry-configuration record assembled by `extract_smi_param`.
`detector` and `rotation` stay `none` when no known detector pattern
matches (the dict keys are simply never set in the source). -/
structure SmiParams where
  wavelength : ℚ
  incidentAngle : ℚ
  detector : Option String
  rotation : Option (ℚ × ℚ × ℚ)
  beamCenter : ℚ × ℚ
  distance : ℚ
deriving DecidableEq

/-- The regex `(?i)(?=.*dectris)(?i)(?=.*eiger2)(?i)(?=.*1m)` applied to
`detector_name.lower()`: all three keywords occur as substrings. -/
def matches1M (name : String) : Bool :=
  containsSub (strLower name) "dectris" && containsSub (strLower name) "eiger2" &&
    containsSub (strLower name) "1m"

/-- The regex `(?i)(?=.*dectris)(?i)(?=.*eiger2)(?i)(?=.*500k)` applied to
`detector_name.lower()`. -/
def matches500k (name : String) : Bool :=
  containsSub (strLower name) "dectris" && containsSub (strLower name) "eiger2" &&
    containsSub (strLower name) "500k"

/-- `extract_smi_param` (class_nexus_file.py lines 84-139), restricted to the
scalar configuration it assembles.  Notes kept from the source:
* the stored wavelength is in nm and is scaled by `1e-9` on read;
* the sample yaw is read into a local variable `incident_angle`, but the
  dict entry `"incident angle"` is then assigned the literal `0`;
* the two detector `if` blocks are not mutually exclusive: the second match
  overwrites the first;
* for the 500k detector the rotation triple is
  `[-yaw, pitch, -roll]` (lines 125-128);
* the stored SDD is scaled by `1e3`. -/
def extract_smi_param (m : ContainerMeta) : SmiParams :=
  let det1 : Option String := if matches1M m.detectorName then some "Eiger1M_xeuss" else none
  let rot1 : Option (ℚ × ℚ × ℚ) := if matches1M m.detectorName then some (0, 0, 0) else none
  let det2 := if matches500k m.detectorName then some "Eiger500k_xeuss" else det1
  let rot2 := if matches500k m.detectorName then
      some (-m.detYaw, m.detPitch, -m.detRoll)
    else rot1
  { wavelength := m.wavelength * (1 / 1000000000)
    incidentAngle := 0
    detector := det2
    rotation := rot2
    beamCenter := (m.beamCenterX, m.beamCenterY)
    distance := m.sdd * 1000 }

/-! ## HDF5 container model

An open `/ENTRY` group is an association list of named groups; a group holds
named datasets and named attributes.  Deleting a name (`del file[path]`) is
modelled by filtering it out; creating a dataset or attribute appends it.
`dtype` and compression options in the source carry no data content and are
not modelled. -/

/-- An HDF5 attribute value as used by the reduction core: a string
(`I_axes`, `canSAS_class`) or a list of integers (`Q_indices`,
`mask_indices`). -/
inductive AttrVal
  | str (s : String)
  | ints (l : List ℤ)
deriving DecidableEq

/-- Dataset payload: a numeric array with its shape and flattened entries, or
a text scalar (the `name`/`description` datasets of a process group). -/
inductive DataVal
  | numeric (shape : List ℕ) (entries : List ℚ)
  | text (s : String)
deriving DecidableEq

/-- An HDF5 dataset: payload plus attached attributes. -/
structure H5Dataset where
  data : DataVal
  attrs : List (String × AttrVal)
deriving DecidableEq

/-- An HDF5 group: named datasets plus group attributes. -/
structure H5Group where
  datasets : List (String × H5Dataset)
  attrs : List (String × AttrVal)
deriving DecidableEq

/-- The `/ENTRY` group of an open container: named child groups. -/
structure H5Entry where
  groups : List (String × H5Group)
deriving DecidableEq

/-- Lookup in an association list (`file.get(path)` / `path in file`). -/
def aget {α : Type} : List (String × α) → String → Option α
  | [], _ => none
  | (k, v) :: t, key => if k = key then some v else aget t key

/-- Deletion from an association list (`del file[path]`). -/
def adel {α : Type} (l : List (String × α)) (k : String) : List (String × α) :=
  l.filter fun p => !(p.1 == k)

/-- Overwrite a binding: delete any old one, append the new one. -/
def aset {α : Type} (l : List (String × α)) (k : String) (v : α) : List (String × α) :=
  adel l k ++ [(k, v)]

/-- A numpy array as handed to `save_data`: its shape and flattened entries. -/
structure NDArr where
  shape : List ℕ
  entries : List ℚ
deriving DecidableEq

/-- `np.zeros(np.shape(a))`. -/
def zerosLike (a : NDArr) : NDArr := ⟨a.shape, a.entries.map fun _ => 0⟩

/-- `len(np.shape(a))`. -/
def NDArr.rank (a : NDArr) : ℕ := a.shape.length

/-- `replace_h5_dataset` (utils.py lines 151-207): remember the old dataset's
attributes (default `{"units": "1/nm"}` when it does not exist), delete it,
create the new dataset — under `newName` when given, else under the old
name — and re-attach the remembered attributes. -/
def replace_h5_dataset (g : H5Group) (name : String) (newData : NDArr)
    (newName : Option String) : H5Group :=
  let oldAttrs := match aget g.datasets name with
    | some ds => ds.attrs
    | none => [("units", AttrVal.str "1/nm")]
  let tgt := newName.getD name
  let ds1 := aset (adel g.datasets name) tgt ⟨DataVal.numeric newData.shape newData.entries, oldAttrs⟩
  { g with datasets := ds1 }

/-- The dataset rewriting that `save_data` (utils.py lines 210-323) performs
inside the target group, starting from `base` (the copied `/ENTRY/DATA`
group, or `/ENTRY/DATA` itself when the target is the canonical group):
replace `Q` (renamed to `parameter_symbol`), `Qdev`, `dQl`, `dQw`, `Qmean`,
`I`, `Idev` and `mask`; then branch on the rank of the saved intensity:
rank 1 deletes `mask` and rewrites the `I_axes`, `Q_indices` and
`mask_indices` group attributes; rank 2 deletes `Qdev`, `dQl` and `dQw`. -/
def build_result_group (base : H5Group) (parameterSymbol : String)
    (parameterData valueData mask : NDArr) : H5Group :=
  let g1 := replace_h5_dataset base "Q" parameterData (some parameterSymbol)
  let g2 := replace_h5_dataset g1 "Qdev" (zerosLike parameterData) none
  let g3 := replace_h5_dataset g2 "dQl" (zerosLike parameterData) none
  let g4 := replace_h5_dataset g3 "dQw" (zerosLike parameterData) none
  let g5 := replace_h5_dataset g4 "Qmean" ⟨[1], [0]⟩ none
  let g6 := replace_h5_dataset g5 "I" valueData none
  let g7 := replace_h5_dataset g6 "Idev" (zerosLike valueData) none
  let g8 := replace_h5_dataset g7 "mask" mask none
  if valueData.rank = 1 then
    { datasets := adel g8.datasets "mask"
      attrs := aset (aset (aset g8.attrs "I_axes" (AttrVal.str "Q"))
        "Q_indices" (AttrVal.ints [0])) "mask_indices" (AttrVal.ints [0]) }
  else if valueData.rank = 2 then
    { g8 with datasets := adel (adel (adel g8.datasets "Qdev") "dQl") "dQw" }
  else g8

/-- `save_data` (utils.py lines 210-323).  The group name is upper-cased; if
a group of that name exists and is not the canonical `DATA` group it is
deleted; unless the target is `DATA` itself, the canonical `/ENTRY/DATA`
subtree is copied to the target name; then the payload datasets are written
per `build_result_group`.  The source assumes `/ENTRY/DATA` exists (`copy`
raises otherwise); the model totalises that corner with an empty group, and
the theorems carry the existence hypothesis. -/
def save_data (entry : H5Entry) (parameterSymbol : String) (parameterData : NDArr)
    (groupName : String) (valueData : NDArr) (mask : NDArr) : H5Entry :=
  let gname := strUpper groupName
  let groups1 := if gname = "DATA" then entry.groups else adel entry.groups gname
  let base := (aget entry.groups "DATA").getD ⟨[], []⟩
  ⟨aset groups1 gname (build_result_group base parameterSymbol parameterData valueData mask)⟩

/-- `create_process` (class_nexus_file.py lines 46-81): delete any previous
process group of that name, then create it with the `canSAS_class`
attribute and `name`/`description` text datasets. -/
def create_process (entry : H5Entry) (groupKey : String)
    (processName processDesc : String) : H5Entry :=
  ⟨adel entry.groups groupKey ++
    [(groupKey,
      { datasets := [("name", ⟨DataVal.text processName, []⟩),
                     ("description", ⟨DataVal.text processDesc, []⟩)]
        attrs := [("canSAS_class", AttrVal.str "SASprocess")] })]⟩

/-- One `save:` block of a `process_*` method: `save_data` into
`/ENTRY/<GROUP_NAME>` followed by `create_process` into
`/ENTRY/PROCESS_<group_name.removeprefix("DATA_")>` (e.g.
class_nexus_file.py lines 684-698). -/
def persist_result (entry : H5Entry) (parameterSymbol : String) (parameterData : NDArr)
    (groupName : String) (valueData : NDArr) (mask : NDArr)
    (processName processDesc : String) : H5Entry :=
  create_process (save_data entry parameterSymbol parameterData groupName valueData mask)
    ("PROCESS_" ++ stripDataTag groupName) processName processDesc

/-- The group stored under `key`, defaulting to the empty group. -/
def resultGroup (entry : H5Entry) (key : String) : H5Group :=
  (aget entry.groups key).getD ⟨[], []⟩

/-- The payload of the dataset named `name` in group `g`, if present. -/
def dsVal (g : H5Group) (name : String) : Option DataVal :=
  (aget g.datasets name).map (·.data)

/-- The group attribute named `name`, if present. -/
def gattr (g : H5Group) (name : String) : Option AttrVal :=
  aget g.attrs name

/-- Number of bindings of `key` in an association list. -/
def keyCount {α : Type} (l : List (String × α)) (key : String) : ℕ :=
  l.countP fun p => p.1 == key

/-! ## Absolute intensity (`process_absolute_intensity`, class_nexus_file.py
lines 1038-1165) -/

/-- Resolve a Python slice endpoint against a list of length `n`: negative
indices count from the end, and the result is clamped to `[0, n]`. -/
def pyResolve (n : ℕ) (i : ℤ) : ℕ :=
  (if i < 0 then (n : ℤ) + i else i).toNat.min n

/-- Python `xs[i:j]` (step 1). -/
def pySlice {α : Type} (xs : List α) (i j : ℤ) : List α :=
  (xs.take (pyResolve xs.length j)).drop (pyResolve xs.length i)

/-- `np.sum(raw[bcy - ry : bcy + ry, bcx - rx : bcx + rx])`: the ROI sum of
lines 1112-1117 (and 1126-1131 for the direct-beam frame). -/
def I_ROI (img : List (List ℚ)) (bcx bcy rx ry : ℤ) : ℚ :=
  ((pySlice img (bcy - ry) (bcy + ry)).map fun row =>
    (pySlice row (bcx - rx) (bcx + rx)).sum).sum

/-- The numeric core of `process_absolute_intensity` (lines 1105-1137): ROI
sums of sample and direct-beam frames, each divided by its exposure time;
`transmission = I_ROI_data / I_ROI_db`;
`scaling_factor = I_ROI_data / (I_ROI_db * transmission * sample_thickness)`;
`abs_data = raw_data * scaling_factor`. -/
def absIntensity (raw : List (List ℚ)) (bcx bcy : ℤ) (time : ℚ)
    (rawDb : List (List ℚ)) (bcxDb bcyDb : ℤ) (timeDb : ℚ)
    (rx ry : ℤ) (thickness : ℚ) : List (List ℚ) :=
  let iRoiData := I_ROI raw bcx bcy rx ry / time
  let iRoiDb := I_ROI rawDb bcxDb bcyDb rx ry / timeDb
  let transmission := iRoiData / iRoiDb
  let scaling := iRoiData / (iRoiDb * transmission * thickness)
  raw.map fun row => row.map fun v => v * scaling

/-- Pixel accessor: entry `(y, x)` of an image, 0 outside. -/
def pixel (img : List (List ℚ)) (y x : ℕ) : ℚ := (img.getD y []).getD x 0

/-- Stated from the specification's words: the ROI sum is the sum of raw
intensity over the centered rectangle of `2*rx` by `2*ry` pixels around the
beam center, i.e. rows `bcy - ry ≤ y < bcy + ry` and columns
`bcx - rx ≤ x < bcx + rx`. -/
def roi_sum_spec (img : List (List ℚ)) (bcx bcy rx ry : ℤ) : ℚ :=
  ∑ y in Finset.Ico (bcy - ry).toNat (bcy + ry).toNat,
    ∑ x in Finset.Ico (bcx - rx).toNat (bcx + rx).toNat, pixel img y x

/-- Stated from the specification's words: ROI sums over the centered
rectangles, rates by dividing by exposure times, transmission as the rate
ratio, the scaling factor, and the final array as raw times scaling. -/
def abs_intensity_spec (raw : List (List ℚ)) (bcx bcy : ℤ) (time : ℚ)
    (rawDb : List (List ℚ)) (bcxDb bcyDb : ℤ) (timeDb : ℚ)
    (rx ry : ℤ) (thickness : ℚ) : List (List ℚ) :=
  let sampleRate := roi_sum_spec raw bcx bcy rx ry / time
  let refRate := roi_sum_spec rawDb bcxDb bcyDb rx ry / timeDb
  let transmission := sampleRate / refRate
  let scaling := sampleRate / (refRate * transmission * thickness)
  raw.map fun row => row.map fun v => v * scaling

/-- The separately loaded direct-beam ("reference") frame and the metadata
read from its container (lines 1120-1124). -/
structure DirectBeam where
  raw : List (List ℚ)
  bcx : ℤ
  bcy : ℤ
  time : ℚ
deriving DecidableEq

/-- One open file of a `NexusFile` batch as `process_absolute_intensity`
uses it: the container state, the raw frame and the metadata already held
in `dicts_parameters`, and the mask of the stitched session. -/
structure FileSession where
  entry : H5Entry
  rawI : List (List ℚ)
  positions : NDArr
  mask : NDArr
  bcx : ℤ
  bcy : ℤ
  time : ℚ
deriving DecidableEq

/-- Flatten a 2D image into the `NDArr` handed to `save_data`. -/
def toNDArr2 (img : List (List ℚ)) : NDArr :=
  ⟨[img.length, (img.headD []).length], img.flatten⟩

/-- `process_absolute_intensity` (lines 1038-1165) at session level.  With
`db_path is None` the method prints and returns before touching any state
(lines 1079-1081); otherwise it computes `abs_data` per file and, when
`save` is set, persists it and its process group. -/
def process_absolute_intensity_model (db : Option DirectBeam) (save : Bool)
    (groupName : String) (rx ry : ℤ) (thickness : ℚ)
    (sessions : List FileSession) : List FileSession :=
  match db with
  | none => sessions
  | some dbv =>
      sessions.map fun s =>
        let absData := absIntensity s.rawI s.bcx s.bcy s.time
          dbv.raw dbv.bcx dbv.bcy dbv.time rx ry thickness
        if save then
          let entry1 := persist_result s.entry "Q" s.positions groupName
            (toNDArr2 absData) s.mask "Absolute Intensity"
            "This process computes the absolute intensity of the data"
          { s with entry := entry1 }
        else s

/-! ## Process descriptions of the directional integrations
(`process_horizontal_integration` lines 830-932,
`process_vertical_integration` lines 934-1036) -/

/-- A pair of Q ranges: the values printed on the `Horizontal Q range` and
`Vertical Q range` lines of a process description, or the
`q_par_range`/`q_per_range` pair passed to the geometry call. -/
structure RangeDesc where
  horizontal : ℚ × ℚ
  vertical : ℚ × ℚ
deriving DecidableEq

/-- The numbers interpolated into `process_horizontal_integration`'s process
description (lines 924-932): the `Horizontal Q range` line shows
`[qx_min, qx_max]` and the `Vertical Q range` line also shows
`[qx_min, qx_max]`. -/
def horizontal_integration_desc (qx_min qx_max qy_min qy_max : ℚ) : RangeDesc :=
  { horizontal := (qx_min, qx_max), vertical := (qx_min, qx_max) }

/-- The numbers interpolated into `process_vertical_integration`'s process
description (lines 1028-1036); both lines again show `[qx_min, qx_max]`. -/
def vertical_integration_desc (qx_min qx_max qy_min qy_max : ℚ) : RangeDesc :=
  { horizontal := (qx_min, qx_max), vertical := (qx_min, qx_max) }

/-- The ranges actually passed to the geometry service by both integrations
(lines 902-905 and 1005-1008): `q_par_range=[qx_min, qx_max]`,
`q_per_range=[qy_min, qy_max]`. -/
def integration_call_ranges (qx_min qx_max qy_min qy_max : ℚ) : RangeDesc :=
  { horizontal := (qx_min, qx_max), vertical := (qy_min, qy_max) }

/-! ## Concrete sample container

A minimal `/ENTRY` with a canonical `DATA` group, used to instantiate the
theorems on concrete inputs. -/

/-- A small canonical `/ENTRY/DATA` group: a 2x2 raw frame with the
axis-index attributes the NXcanSAS layout carries. -/
def sampleDataGroup : H5Group where
  datasets :=
    [("I", ⟨DataVal.numeric [2, 2] [1, 2, 3, 4], [("units", AttrVal.str "arbitrary")]⟩),
     ("Q", ⟨DataVal.numeric [2, 2, 2] [0, 0, 0, 0, 0, 0, 0, 0], [("units", AttrVal.str "1/A")]⟩),
     ("mask", ⟨DataVal.numeric [2, 2] [0, 0, 0, 0], []⟩)]
  attrs :=
    [("I_axes", AttrVal.str "Qx,Qy"), ("Q_indices", AttrVal.ints [0, 1]),
     ("mask_indices", AttrVal.ints [0, 1]), ("canSAS_class", AttrVal.str "SASdata")]

/-- A container whose `/ENTRY` holds just the canonical `DATA` group. -/
def sampleEntry : H5Entry := ⟨[("DATA", sampleDataGroup)]⟩

/-- Concrete instrument metadata with a 500k detector name and rotation
angles 10, 20, 30. -/
def sampleMeta : ContainerMeta where
  wavelength := 1
  sampleYaw := 1 / 2
  detectorName := "Dectris EIGER2 500K"
  detYaw := 10
  detPitch := 20
  detRoll := 30
  beamCenterX := 60
  beamCenterY := 40
  sdd := 1

/-! End of definitions; the remainder of the file is theorems. -/

/-! ## Association-list lemmas -/

theorem aget_cons {α : Type} (k key : String) (v : α) (t : List (String × α)) :
    aget ((k, v) :: t) key = if k = key then some v else aget t key := rfl

theorem aget_append {α : Type} (l1 l2 : List (String × α)) (key : String) :
    aget (l1 ++ l2) key = ((aget l1 key).map some).getD (aget l2 key) := by
  induction l1 with
  | nil => simp [aget]
  | cons p t ih =>
      obtain ⟨k, v⟩ := p
      by_cases h : k = key <;> simp [aget, h, ih]

theorem aget_adel_self {α : Type} (l : List (String × α)) (key : String) :
    aget (adel l key) key = none := by
  induction l with
  | nil => simp [adel, aget]
  | cons p t ih =>
      obtain ⟨k, v⟩ := p
      simp only [adel, List.filter_cons] at ih ⊢
      by_cases h : k = key <;> simp [h, aget, ih]

theorem aget_adel_ne {α : Type} (l : List (String × α)) (k1 key : String)
    (h : k1 ≠ key) : aget (adel l k1) key = aget l key := by
  induction l with
  | nil => simp [adel, aget]
  | cons p t ih =>
      obtain ⟨k, v⟩ := p
      simp only [adel, List.filter_cons] at ih ⊢
      by_cases hk : k = k1
      · subst hk
        simp [aget, h, ih]
      · by_cases hk2 : k = key <;> simp [aget, hk, hk2, Ne.symm h, ih]

theorem aget_aset_self {α : Type} (l : List (String × α)) (key : String) (v : α) :
    aget (aset l key v) key = some v := by
  simp [aset, aget_append, aget_adel_self, aget]

theorem aget_aset_ne {α : Type} (l : List (String × α)) (k1 key : String) (v : α)
    (h : k1 ≠ key) : aget (aset l k1 v) key = aget l key := by
  simp [aset, aget_append, aget_adel_ne _ _ _ h, aget, h]
  cases aget l key <;> simp

theorem adel_append {α : Type} (l1 l2 : List (String × α)) (key : String) :
    adel (l1 ++ l2) key = adel l1 key ++ adel l2 key := by
  simp [adel, List.filter_append]

theorem adel_adel_self {α : Type} (l : List (String × α)) (key : String) :
    adel (adel l key) key = adel l key := by
  simp [adel, List.filter_filter]

theorem adel_adel_comm {α : Type} (l : List (String × α)) (k1 k2 : String) :
    adel (adel l k1) k2 = adel (adel l k2) k1 := by
  simp only [adel, List.filter_filter]
  congr 1
  funext p
  rw [Bool.and_comm]

theorem adel_single_ne {α : Type} (k key : String) (v : α) (h : k ≠ key) :
    adel [(k, v)] key = [(k, v)] := by
  simp [adel, List.filter_cons, h]

theorem adel_single_self {α : Type} (key : String) (v : α) :
    adel [(key, v)] key = [] := by
  simp [adel, List.filter_cons]

theorem keyCount_append {α : Type} (l1 l2 : List (String × α)) (key : String) :
    keyCount (l1 ++ l2) key = keyCount l1 key + keyCount l2 key := by
  simp [keyCount, List.countP_append]

theorem keyCount_adel {α : Type} (l : List (String × α)) (key : String) :
    keyCount (adel l key) key = 0 := by
  induction l with
  | nil => rfl
  | cons p t ih =>
      obtain ⟨k, v⟩ := p
      by_cases h : k = key <;>
        simp_all [keyCount, adel, List.filter_cons, List.countP_cons, h]

/-! ## Arithmetic helper lemmas -/

theorem list_sum_getD (l : List ℚ) (d : ℚ) :
    l.sum = ∑ k in Finset.range l.length, l.getD k d := by
  induction l with
  | nil => simp
  | cons x t ih =>
      simp only [List.sum_cons, List.length_cons, Finset.sum_range_succ',
        List.getD_cons_succ, List.getD_cons_zero, ih]
      ring

theorem getD_map {α : Type} (f : α → ℚ) (xs : List α) (k : ℕ) (d : α) :
    (xs.map f).getD k (f d) = f (xs.getD k d) := by
  simp only [List.getD_eq_getElem?_getD, List.getElem?_map]
  cases xs[k]? <;> simp

theorem take_sum (xs : List ℚ) (d : ℚ) (m : ℕ) (h : m ≤ xs.length) :
    (xs.take m).sum = ∑ k in Finset.range m, xs.getD k d := by
  rw [list_sum_getD _ d, List.length_take, min_eq_left h]
  refine Finset.sum_congr rfl fun k hk => ?_
  rw [Finset.mem_range] at hk
  simp [List.getD_eq_getElem?_getD, List.getElem?_take, hk]

theorem pyResolve_of_bounds (n : ℕ) (i : ℤ) (h0 : 0 ≤ i) (hn : i ≤ (n : ℤ)) :
    pyResolve n i = i.toNat := by
  unfold pyResolve
  rw [if_neg (by omega)]
  exact Nat.min_eq_left (by omega)

theorem pySlice_sum (xs : List ℚ) (d : ℚ) (i j : ℤ) (h0 : 0 ≤ i) (hij : i ≤ j)
    (hj : j ≤ (xs.length : ℤ)) :
    (pySlice xs i j).sum = ∑ k in Finset.Ico i.toNat j.toNat, xs.getD k d := by
  have hi2 : i.toNat ≤ j.toNat := by omega
  have hjn : j.toNat ≤ xs.length := by omega
  have hin : i.toNat ≤ xs.length := le_trans hi2 hjn
  unfold pySlice
  rw [pyResolve_of_bounds _ _ h0 (le_trans hij hj), pyResolve_of_bounds _ _ (le_trans h0 hij) hj]
  have hsplit := List.sum_take_add_sum_drop (xs.take j.toNat) i.toNat
  have htt : (xs.take j.toNat).take i.toNat = xs.take i.toNat := by
    rw [List.take_take, min_eq_left hi2]
  have hdrop : ((xs.take j.toNat).drop i.toNat).sum
      = (xs.take j.toNat).sum - (xs.take i.toNat).sum := by
    rw [← htt]; linarith
  rw [hdrop, take_sum xs d _ hjn, take_sum xs d _ hin,
    Finset.sum_Ico_eq_sub (fun k => xs.getD k d) hi2]

theorem pySlice_map_sum {α : Type} (d : α) (f : α → ℚ) (xs : List α) (i j : ℤ)
    (h0 : 0 ≤ i) (hij : i ≤ j) (hj : j ≤ (xs.length : ℤ)) :
    ((pySlice xs i j).map f).sum = ∑ k in Finset.Ico i.toNat j.toNat, f (xs.getD k d) := by
  have hmap : (pySlice xs i j).map f = pySlice (xs.map f) i j := by
    unfold pySlice
    rw [List.map_drop, List.map_take, List.length_map]
  rw [hmap]
  rw [pySlice_sum (xs.map f) (f d) i j h0 hij (by simpa using hj)]
  exact Finset.sum_congr rfl fun k _ => getD_map f xs k d

theorem I_ROI_eq_spec (img : List (List ℚ)) (bcx bcy rx ry : ℤ) (w : ℕ)
    (hw : ∀ r ∈ img, r.length = w) (hrx : 0 ≤ rx) (hry : 0 ≤ ry)
    (hy0 : 0 ≤ bcy - ry) (hy1 : bcy + ry ≤ (img.length : ℤ))
    (hx0 : 0 ≤ bcx - rx) (hx1 : bcx + rx ≤ (w : ℤ)) :
    I_ROI img bcx bcy rx ry = roi_sum_spec img bcx bcy rx ry := by
  unfold I_ROI roi_sum_spec
  rw [pySlice_map_sum [] _ img _ _ hy0 (by omega) hy1]
  refine Finset.sum_congr rfl fun y hy => ?_
  have hylt : y < img.length := by
    rw [Finset.mem_Ico] at hy
    omega
  have hrow : (img.getD y []).length = w := by
    have hmem : img.getD y [] ∈ img := by
      rw [List.getD_eq_getElem?_getD, List.getElem?_eq_getElem hylt]
      exact List.getElem_mem hylt
    exact hw _ hmem
  rw [pySlice_sum _ 0 _ _ hx0 (by omega) (by rw [hrow]; exact hx1)]
  simp [pixel]

theorem minAbs_nonneg (xs : List ℚ) : 0 ≤ minAbs xs := by
  cases xs with
  | nil => simp [minAbs]
  | cons x t =>
      have h : ∀ (t : List ℚ) (m : ℚ), 0 ≤ m →
          0 ≤ t.foldl (fun a y => min a |y|) m := by
        intro t
        induction t with
        | nil => intro m hm; simpa using hm
        | cons y s ih =>
            intro m hm
            exact ih _ (le_min hm (abs_nonneg y))
      exact h t |x| (abs_nonneg x)

/-! ## Claim theorems -/

theorem default_r_min_at_example : default_r_min [1, 5] [-3, 3] = 3 := by
  unfold default_r_min
  rw [if_neg (by decide), if_pos (by decide),
    show minAbs [-3, 3] = 3 from by decide]
  rw [show ((3 : ℚ) : ℝ) = 3 by norm_num]
  exact Real.sqrt_sq (by norm_num)

/-- C1 counterexample: for the claim's own example, stitched axes
Qp = [1, 5] (not straddling zero) and Qz = [-3, 3] (straddling), the default
radial minimum computed by `process_radial_average` /
`process_azimuthal_average` is 3 — the smallest magnitude of the *straddling*
Qz axis — not 1 (the smallest |Qp|) as the claim states. -/
theorem c1_default_r_min_counterexample :
    default_r_min [1, 5] [-3, 3] = 3 ∧ (3 : ℝ) ≠ 1 :=
  ⟨default_r_min_at_example, by norm_num⟩

/-- C1 amended: the default radial minimum is computed by four branches:
if the totalled element-wise signs of the two axes cancel to zero it is 0;
otherwise, if the Qp axis's endpoints share a sign it is the smallest
magnitude of the *Qz* axis; otherwise, if the Qz axis's endpoints share a
sign it is the smallest magnitude of the Qp axis; otherwise it is
`sqrt(min|Qp|² + min|Qz|²)`.  (The two single-straddling branches thus use
the opposite axis from the one whose sign pattern they test.) -/
theorem c1_default_r_min_amended (qp qz : List ℚ) (hlen : qp.length = qz.length) :
    default_r_min qp qz =
      if zipSignSum qp qz = 0 then 0
      else if npSign (lastQ qp) = npSign (headQ qp) then ((minAbs qz : ℚ) : ℝ)
      else if npSign (lastQ qz) = npSign (headQ qz) then ((minAbs qp : ℚ) : ℝ)
      else Real.sqrt ((minAbs qp : ℝ) ^ 2 + (minAbs qz : ℝ) ^ 2) := by
  unfold default_r_min
  by_cases h1 : zipSignSum qp qz = 0
  · rw [if_pos h1, if_pos h1]
  · rw [if_neg h1, if_neg h1]
    by_cases h2 : npSign (lastQ qp) = npSign (headQ qp)
    · rw [if_pos h2, if_pos h2, Real.sqrt_sq (by exact_mod_cast minAbs_nonneg qz)]
    · rw [if_neg h2, if_neg h2]
      by_cases h3 : npSign (lastQ qz) = npSign (headQ qz)
      · rw [if_pos h3, if_pos h3, Real.sqrt_sq (by exact_mod_cast minAbs_nonneg qp)]
      · rw [if_neg h3, if_neg h3]

/-- C1 amended witness: the amended characterisation applied at the claim's
example axes, giving 3. -/
theorem c1_default_r_min_amended_witness :
    ([(1 : ℚ), 5].length = [(-3 : ℚ), 3].length) ∧
      default_r_min [1, 5] [-3, 3] = 3 := by
  refine ⟨rfl, ?_⟩
  rw [c1_default_r_min_amended [1, 5] [-3, 3] rfl,
    if_neg (by decide), if_pos (by decide),
    show minAbs [-3, 3] = 3 from by decide]
  norm_num

/-- C4: `process_azimuthal_average` does not pass a caller-supplied `r_min`
through to the geometry call: with `r_min = 7` explicitly supplied and axes
Qp = [1, 5], Qz = [-3, 3], the value handed to `azimuthal_averaging` is the
computed default 3, not 7. -/
theorem c4_azimuthal_r_min_overridden :
    azimuthal_resolved_r_min (some 7) [1, 5] [-3, 3] = 3 ∧ (3 : ℝ) ≠ 7 := by
  constructor
  · show default_r_min [1, 5] [-3, 3] = 3
    exact default_r_min_at_example
  · norm_num

/-- C5: whenever the detector identifier matches the `dectris`/`eiger2`/
`500k` pattern, the rotation triple assembled by `extract_smi_param` is
`[-yaw, pitch, -roll]`: yaw and roll negated, pitch passed through. -/
theorem c5_rotation_sign_convention (m : ContainerMeta)
    (h : matches500k m.detectorName = true) :
    (extract_smi_param m).rotation = some (-m.detYaw, m.detPitch, -m.detRoll) := by
  simp [extract_smi_param, h]

/-- C5 witness: detector name "Dectris EIGER2 500K" with yaw 10, pitch 20,
roll 30 yields the rotation triple (-10, 20, -30). -/
theorem c5_rotation_sign_convention_witness :
    matches500k sampleMeta.detectorName = true ∧
      (extract_smi_param sampleMeta).rotation = some (-10, 20, -30) :=
  ⟨by decide, c5_rotation_sign_convention sampleMeta (by decide)⟩

/-- C8: at qx range [1, 2] and qy range [3, 4], the `Vertical Q range` line
of both integration descriptions records the pair (1, 2) — the qx pair — while
the geometry call's effective vertical (`q_per_range`) pair is (3, 4); the
description therefore does not record the effective vertical bounds. -/
theorem c8_desc_vertical_range_bug :
    (horizontal_integration_desc 1 2 3 4).vertical = (1, 2) ∧
      (vertical_integration_desc 1 2 3 4).vertical = (1, 2) ∧
      (integration_call_ranges 1 2 3 4).vertical = (3, 4) ∧
      ((1 : ℚ), (2 : ℚ)) ≠ ((3 : ℚ), (4 : ℚ)) :=
  ⟨rfl, rfl, rfl, by decide⟩

/-- C9 counterexample: with a stored sample yaw of 1/2, the incident angle
assembled by `extract_smi_param` is 0, not the stored yaw. -/
theorem c9_incident_angle_counterexample :
    (extract_smi_param sampleMeta).incidentAngle = 0 ∧
      (extract_smi_param sampleMeta).incidentAngle ≠ sampleMeta.sampleYaw := by
  refine ⟨rfl, ?_⟩
  show (0 : ℚ) ≠ sampleMeta.sampleYaw
  norm_num [sampleMeta]

/-- C9 amended: `extract_smi_param` reads `/ENTRY/SAMPLE/yaw` into a local
but then sets the incident angle to the literal 0 for every container. -/
theorem c9_incident_angle_amended (m : ContainerMeta) :
    (extract_smi_param m).incidentAngle = 0 := rfl

/-- C10: calling the absolute-intensity operation with no direct-beam file
is a no-op: every session (container state included) is returned unchanged,
whatever the other parameters are. -/
theorem c10_no_direct_beam_noop (save : Bool) (groupName : String) (rx ry : ℤ)
    (thickness : ℚ) (sessions : List FileSession) :
    process_absolute_intensity_model none save groupName rx ry thickness sessions
      = sessions := rfl

/-! ## Lookup lemmas for `save_data` -/

theorem datasets_replace_skip (g : H5Group) (name : String) (nd : NDArr)
    (newName : Option String) (k : String) (h1 : ¬ k = newName.getD name)
    (h2 : ¬ k = name) :
    aget (replace_h5_dataset g name nd newName).datasets k = aget g.datasets k := by
  unfold replace_h5_dataset
  rw [aget_aset_ne _ _ _ _ fun he => h1 he.symm,
    aget_adel_ne _ _ _ fun he => h2 he.symm]

theorem datasets_replace_self (g : H5Group) (name : String) (nd : NDArr)
    (newName : Option String) :
    aget (replace_h5_dataset g name nd newName).datasets (newName.getD name)
      = some ⟨DataVal.numeric nd.shape nd.entries,
          match aget g.datasets name with
          | some ds => ds.attrs
          | none => [("units", AttrVal.str "1/nm")]⟩ := by
  unfold replace_h5_dataset
  exact aget_aset_self _ _ _

theorem datasets_replace_self_none (g : H5Group) (name : String) (nd : NDArr) :
    aget (replace_h5_dataset g name nd none).datasets name
      = some ⟨DataVal.numeric nd.shape nd.entries,
          match aget g.datasets name with
          | some ds => ds.attrs
          | none => [("units", AttrVal.str "1/nm")]⟩ :=
  datasets_replace_self g name nd none

theorem datasets_replace_self_some (g : H5Group) (name sym : String) (nd : NDArr) :
    aget (replace_h5_dataset g name nd (some sym)).datasets sym
      = some ⟨DataVal.numeric nd.shape nd.entries,
          match aget g.datasets name with
          | some ds => ds.attrs
          | none => [("units", AttrVal.str "1/nm")]⟩ :=
  datasets_replace_self g name nd (some sym)

theorem resultGroup_save_data (entry : H5Entry) (pS : String) (pD : NDArr)
    (gname : String) (vD mask : NDArr) :
    resultGroup (save_data entry pS pD gname vD mask) (strUpper gname)
      = build_result_group ((aget entry.groups "DATA").getD ⟨[], []⟩) pS pD vD mask := by
  unfold resultGroup save_data
  by_cases h : strUpper gname = "DATA" <;> simp [h, aget_aset_self]

/-- C2 counterexample: saving a 1D result (`I` of shape `[3]`) into the
sample container leaves `Qdev` (and `dQl`, `dQw`) present in the persisted
group — the claim states a 1D result has no `Qdev` child. -/
theorem c2_rank_schema_counterexample :
    dsVal (resultGroup (save_data sampleEntry "Q" ⟨[3], [7, 8, 9]⟩ "DATA_RAD_AVG"
        ⟨[3], [4, 5, 6]⟩ ⟨[2, 2], [0, 0, 0, 0]⟩) "DATA_RAD_AVG") "Qdev"
      = some (DataVal.numeric [3] [0, 0, 0]) ∧
    dsVal (resultGroup (save_data sampleEntry "Q" ⟨[3], [7, 8, 9]⟩ "DATA_RAD_AVG"
        ⟨[3], [4, 5, 6]⟩ ⟨[2, 2], [0, 0, 0, 0]⟩) "DATA_RAD_AVG") "Qdev" ≠ none := by
  constructor
  · decide
  · decide

/-- C2 amended: in the persisted group, a 1D intensity result has no `mask`
child but *keeps* the zero-filled `Qdev`, `dQl` and `dQw` datasets (shaped
like the parameter array), and its `I_axes`/`Q_indices`/`mask_indices`
attributes are rewritten to `"Q"`/`[0]`/`[0]`; a 2D intensity result keeps
the `mask` child, drops `Qdev`, `dQl` and `dQw`, and carries a zero-filled
`Idev`. -/
theorem c2_rank_schema_amended (entry : H5Entry) (pS : String) (pD vD mask : NDArr)
    (gname : String) (hD : (aget entry.groups "DATA").isSome = true) :
    (vD.rank = 1 →
      dsVal (resultGroup (save_data entry pS pD gname vD mask) (strUpper gname)) "mask"
          = none ∧
      dsVal (resultGroup (save_data entry pS pD gname vD mask) (strUpper gname)) "Qdev"
          = some (DataVal.numeric pD.shape (pD.entries.map fun _ => 0)) ∧
      dsVal (resultGroup (save_data entry pS pD gname vD mask) (strUpper gname)) "dQl"
          = some (DataVal.numeric pD.shape (pD.entries.map fun _ => 0)) ∧
      dsVal (resultGroup (save_data entry pS pD gname vD mask) (strUpper gname)) "dQw"
          = some (DataVal.numeric pD.shape (pD.entries.map fun _ => 0)) ∧
      gattr (resultGroup (save_data entry pS pD gname vD mask) (strUpper gname)) "I_axes"
          = some (AttrVal.str "Q") ∧
      gattr (resultGroup (save_data entry pS pD gname vD mask) (strUpper gname)) "Q_indices"
          = some (AttrVal.ints [0]) ∧
      gattr (resultGroup (save_data entry pS pD gname vD mask) (strUpper gname)) "mask_indices"
          = some (AttrVal.ints [0])) ∧
    (vD.rank = 2 →
      dsVal (resultGroup (save_data entry pS pD gname vD mask) (strUpper gname)) "mask"
          = some (DataVal.numeric mask.shape mask.entries) ∧
      dsVal (resultGroup (save_data entry pS pD gname vD mask) (strUpper gname)) "Qdev"
          = none ∧
      dsVal (resultGroup (save_data entry pS pD gname vD mask) (strUpper gname)) "dQl"
          = none ∧
      dsVal (resultGroup (save_data entry pS pD gname vD mask) (strUpper gname)) "dQw"
          = none ∧
      dsVal (resultGroup (save_data entry pS pD gname vD mask) (strUpper gname)) "Idev"
          = some (DataVal.numeric vD.shape (vD.entries.map fun _ => 0))) := by
  rw [resultGroup_save_data]
  constructor
  · intro h1
    unfold build_result_group
    rw [if_pos h1]
    refine ⟨?_, ?_, ?_, ?_, ?_, ?_, ?_⟩ <;>
      simp +decide [dsVal, gattr, zerosLike, datasets_replace_skip,
        datasets_replace_self_none, datasets_replace_self_some, aget_adel_self,
        aget_adel_ne, aget_aset_self, aget_aset_ne]
  · intro h2
    unfold build_result_group
    rw [if_neg (by omega), if_pos h2]
    refine ⟨?_, ?_, ?_, ?_, ?_⟩ <;>
      simp +decide [dsVal, gattr, zerosLike, datasets_replace_skip,
        datasets_replace_self_none, datasets_replace_self_some, aget_adel_self,
        aget_adel_ne, aget_aset_self, aget_aset_ne]

/-- C2 amended witness: the amended rank-1 schema applied to a concrete 1D
save into the sample container. -/
theorem c2_rank_schema_amended_witness :
    (aget sampleEntry.groups "DATA").isSome = true ∧
      (dsVal (resultGroup (save_data sampleEntry "Q" ⟨[3], [7, 8, 9]⟩ "data_rad_avg"
          ⟨[3], [4, 5, 6]⟩ ⟨[2, 2], [0, 0, 0, 0]⟩) (strUpper "data_rad_avg")) "mask"
          = none ∧
        dsVal (resultGroup (save_data sampleEntry "Q" ⟨[3], [7, 8, 9]⟩ "data_rad_avg"
          ⟨[3], [4, 5, 6]⟩ ⟨[2, 2], [0, 0, 0, 0]⟩) (strUpper "data_rad_avg")) "Qdev"
          = some (DataVal.numeric [3] (([7, 8, 9] : List ℚ).map fun _ => 0)) ∧
        dsVal (resultGroup (save_data sampleEntry "Q" ⟨[3], [7, 8, 9]⟩ "data_rad_avg"
          ⟨[3], [4, 5, 6]⟩ ⟨[2, 2], [0, 0, 0, 0]⟩) (strUpper "data_rad_avg")) "dQl"
          = some (DataVal.numeric [3] (([7, 8, 9] : List ℚ).map fun _ => 0)) ∧
        dsVal (resultGroup (save_data sampleEntry "Q" ⟨[3], [7, 8, 9]⟩ "data_rad_avg"
          ⟨[3], [4, 5, 6]⟩ ⟨[2, 2], [0, 0, 0, 0]⟩) (strUpper "data_rad_avg")) "dQw"
          = some (DataVal.numeric [3] (([7, 8, 9] : List ℚ).map fun _ => 0)) ∧
        gattr (resultGroup (save_data sampleEntry "Q" ⟨[3], [7, 8, 9]⟩ "data_rad_avg"
          ⟨[3], [4, 5, 6]⟩ ⟨[2, 2], [0, 0, 0, 0]⟩) (strUpper "data_rad_avg")) "I_axes"
          = some (AttrVal.str "Q") ∧
        gattr (resultGroup (save_data sampleEntry "Q" ⟨[3], [7, 8, 9]⟩ "data_rad_avg"
          ⟨[3], [4, 5, 6]⟩ ⟨[2, 2], [0, 0, 0, 0]⟩) (strUpper "data_rad_avg")) "Q_indices"
          = some (AttrVal.ints [0]) ∧
        gattr (resultGroup (save_data sampleEntry "Q" ⟨[3], [7, 8, 9]⟩ "data_rad_avg"
          ⟨[3], [4, 5, 6]⟩ ⟨[2, 2], [0, 0, 0, 0]⟩) (strUpper "data_rad_avg")) "mask_indices"
          = some (AttrVal.ints [0])) :=
  ⟨by decide,
    (c2_rank_schema_amended sampleEntry "Q" ⟨[3], [7, 8, 9]⟩ ⟨[3], [4, 5, 6]⟩
      ⟨[2, 2], [0, 0, 0, 0]⟩ "data_rad_avg" (by decide)).1 (by decide)⟩

/-- C6 counterexample: saving intensity of shape `[3]`, a parameter array of
shape `[5]` and a mask of shape `[2, 2]` (mutually inconsistent shapes) does
not reject the data: the container is modified and the result group is
written with the mismatched arrays. -/
theorem c6_shape_error_counterexample :
    save_data sampleEntry "Q" ⟨[5], [1, 2, 3, 4, 5]⟩ "DATA_X" ⟨[3], [1, 2, 3]⟩
        ⟨[2, 2], [1, 0, 0, 1]⟩ ≠ sampleEntry ∧
      aget (save_data sampleEntry "Q" ⟨[5], [1, 2, 3, 4, 5]⟩ "DATA_X" ⟨[3], [1, 2, 3]⟩
        ⟨[2, 2], [1, 0, 0, 1]⟩).groups "DATA_X" ≠ none := by
  constructor
  · decide
  · decide

/-- C6 amended: `save_data` performs no shape validation at all: for any
intensity, parameter and mask arrays — however inconsistent their shapes —
the result group is created and the intensity is stored exactly as given. -/
theorem c6_no_shape_validation (entry : H5Entry) (pS : String) (pD vD mask : NDArr)
    (gname : String) (hD : (aget entry.groups "DATA").isSome = true) :
    (aget (save_data entry pS pD gname vD mask).groups (strUpper gname)).isSome = true ∧
      dsVal (resultGroup (save_data entry pS pD gname vD mask) (strUpper gname)) "I"
        = some (DataVal.numeric vD.shape vD.entries) := by
  constructor
  · unfold save_data
    simp [aget_aset_self]
  · rw [resultGroup_save_data]
    unfold build_result_group
    by_cases h1 : vD.rank = 1
    · rw [if_pos h1]
      simp +decide [dsVal, datasets_replace_skip, datasets_replace_self_none,
        datasets_replace_self_some, aget_adel_self, aget_adel_ne, aget_aset_self,
        aget_aset_ne]
    · rw [if_neg h1]
      by_cases h2 : vD.rank = 2
      · rw [if_pos h2]
        simp +decide [dsVal, datasets_replace_skip, datasets_replace_self_none,
          datasets_replace_self_some, aget_adel_self, aget_adel_ne, aget_aset_self,
          aget_aset_ne]
      · rw [if_neg h2]
        simp +decide [dsVal, datasets_replace_skip, datasets_replace_self_none,
          datasets_replace_self_some, aget_adel_self, aget_adel_ne, aget_aset_self,
          aget_aset_ne]

/-- C6 amended witness: the amended statement at the mismatched concrete
shapes of the counterexample. -/
theorem c6_no_shape_validation_witness :
    (aget sampleEntry.groups "DATA").isSome = true ∧
      ((aget (save_data sampleEntry "Q" ⟨[5], [1, 2, 3, 4, 5]⟩ "DATA_X"
          ⟨[3], [1, 2, 3]⟩ ⟨[2, 2], [1, 0, 0, 1]⟩).groups (strUpper "DATA_X")).isSome = true ∧
        dsVal (resultGroup (save_data sampleEntry "Q" ⟨[5], [1, 2, 3, 4, 5]⟩ "DATA_X"
          ⟨[3], [1, 2, 3]⟩ ⟨[2, 2], [1, 0, 0, 1]⟩) (strUpper "DATA_X")) "I"
          = some (DataVal.numeric [3] [1, 2, 3])) :=
  ⟨by decide,
    c6_no_shape_validation sampleEntry "Q" ⟨[5], [1, 2, 3, 4, 5]⟩ ⟨[3], [1, 2, 3]⟩
      ⟨[2, 2], [1, 0, 0, 1]⟩ "DATA_X" (by decide)⟩

/-! ## Idempotence of persisting a result -/

theorem H5Entry_ext (x y : H5Entry) (h : x.groups = y.groups) : x = y := by
  cases x; cases y; simpa using h

theorem processKey_ne_data (s : String) : ¬ ("PROCESS_" ++ s) = "DATA" := by
  intro h
  have h2 : ("PROCESS_" ++ s).data = "DATA".data := congrArg String.data h
  rw [String.data_append] at h2
  have h3 := congrArg List.length h2
  rw [List.length_append] at h3
  have e1 : ("PROCESS_".data).length = 8 := rfl
  have e2 : ("DATA".data).length = 4 := rfl
  rw [e1, e2] at h3
  omega

theorem persist_result_groups (entry : H5Entry) (pS : String) (pD : NDArr)
    (gname : String) (vD mask : NDArr) (pn pdesc : String)
    (hg : ¬ strUpper gname = "DATA")
    (hgp : ¬ strUpper gname = "PROCESS_" ++ stripDataTag gname) :
    (persist_result entry pS pD gname vD mask pn pdesc).groups
      = adel (adel entry.groups (strUpper gname)) ("PROCESS_" ++ stripDataTag gname)
        ++ [(strUpper gname,
             build_result_group ((aget entry.groups "DATA").getD ⟨[], []⟩) pS pD vD mask),
            ("PROCESS_" ++ stripDataTag gname,
             { datasets := [("name", ⟨DataVal.text pn, []⟩),
                            ("description", ⟨DataVal.text pdesc, []⟩)]
               attrs := [("canSAS_class", AttrVal.str "SASprocess")] })] := by
  unfold persist_result create_process save_data
  simp only [if_neg hg, aset]
  rw [adel_adel_self, adel_append, adel_single_ne _ _ _ hgp]
  simp [List.append_assoc]

/-- C7: persisting the same result twice under the same (non-canonical) group
name yields exactly the container state of the first persist — the existing
group and process group are deleted and fully recreated, never merged — and
the final state holds exactly one result group and one process group of
those names. -/
theorem c7_persist_idempotent (entry : H5Entry) (pS : String) (pD : NDArr)
    (gname : String) (vD mask : NDArr) (pn pdesc : String)
    (hg : ¬ strUpper gname = "DATA")
    (hgp : ¬ strUpper gname = "PROCESS_" ++ stripDataTag gname) :
    persist_result (persist_result entry pS pD gname vD mask pn pdesc)
        pS pD gname vD mask pn pdesc
      = persist_result entry pS pD gname vD mask pn pdesc ∧
    keyCount (persist_result entry pS pD gname vD mask pn pdesc).groups
      (strUpper gname) = 1 ∧
    keyCount (persist_result entry pS pD gname vD mask pn pdesc).groups
      ("PROCESS_" ++ stripDataTag gname) = 1 := by
  have hpkD : ¬ ("PROCESS_" ++ stripDataTag gname) = "DATA" := processKey_ne_data _
  have hpg : ¬ ("PROCESS_" ++ stripDataTag gname) = strUpper gname :=
    fun he => hgp he.symm
  have hDATA : aget (persist_result entry pS pD gname vD mask pn pdesc).groups "DATA"
      = aget entry.groups "DATA" := by
    rw [persist_result_groups entry pS pD gname vD mask pn pdesc hg hgp, aget_append,
      aget_adel_ne _ _ _ hpkD, aget_adel_ne _ _ _ hg]
    cases hc : aget entry.groups "DATA" with
    | some v => simp
    | none => simp [aget, hg, hpkD]
  have hL : adel [(strUpper gname,
        build_result_group ((aget entry.groups "DATA").getD ⟨[], []⟩) pS pD vD mask),
      ("PROCESS_" ++ stripDataTag gname,
       { datasets := [("name", (⟨DataVal.text pn, []⟩ : H5Dataset)),
                      ("description", ⟨DataVal.text pdesc, []⟩)]
         attrs := [("canSAS_class", AttrVal.str "SASprocess")] })] (strUpper gname)
      = [("PROCESS_" ++ stripDataTag gname,
          { datasets := [("name", (⟨DataVal.text pn, []⟩ : H5Dataset)),
                         ("description", ⟨DataVal.text pdesc, []⟩)]
            attrs := [("canSAS_class", AttrVal.str "SASprocess")] })] := by
    simp [adel, List.filter_cons, hpg]
  refine ⟨?_, ?_, ?_⟩
  · apply H5Entry_ext
    rw [persist_result_groups (persist_result entry pS pD gname vD mask pn pdesc)
        pS pD gname vD mask pn pdesc hg hgp, hDATA,
      persist_result_groups entry pS pD gname vD mask pn pdesc hg hgp]
    congr 1
    rw [adel_append, adel_append, hL]
    rw [show adel (adel (adel entry.groups (strUpper gname))
        ("PROCESS_" ++ stripDataTag gname)) (strUpper gname)
      = adel (adel entry.groups (strUpper gname)) ("PROCESS_" ++ stripDataTag gname) from by
        rw [adel_adel_comm, adel_adel_self]]
    rw [show adel (adel (adel entry.groups (strUpper gname))
        ("PROCESS_" ++ stripDataTag gname)) ("PROCESS_" ++ stripDataTag gname)
      = adel (adel entry.groups (strUpper gname)) ("PROCESS_" ++ stripDataTag gname) from
        adel_adel_self _ _]
    rw [adel_single_self]
    simp
  · rw [persist_result_groups entry pS pD gname vD mask pn pdesc hg hgp, keyCount_append]
    rw [show keyCount (adel (adel entry.groups (strUpper gname))
        ("PROCESS_" ++ stripDataTag gname)) (strUpper gname) = 0 from by
      rw [adel_adel_comm, keyCount_adel]]
    simp [keyCount, List.countP_cons, hpg]
  · rw [persist_result_groups entry pS pD gname vD mask pn pdesc hg hgp, keyCount_append,
      keyCount_adel]
    simp [keyCount, List.countP_cons, hgp]

/-- C7 witness: the idempotence statement at a concrete container and the
group name "DATA_Q_SPACE". -/
theorem c7_persist_idempotent_witness :
    (¬ strUpper "DATA_Q_SPACE" = "DATA") ∧
    (¬ strUpper "DATA_Q_SPACE" = "PROCESS_" ++ stripDataTag "DATA_Q_SPACE") ∧
    (persist_result (persist_result sampleEntry "Q" ⟨[3], [1, 2, 3]⟩ "DATA_Q_SPACE"
          ⟨[3], [4, 5, 6]⟩ ⟨[2, 2], [0, 0, 0, 0]⟩ "Conversion to q-space" "q-space process")
        "Q" ⟨[3], [1, 2, 3]⟩ "DATA_Q_SPACE" ⟨[3], [4, 5, 6]⟩ ⟨[2, 2], [0, 0, 0, 0]⟩
        "Conversion to q-space" "q-space process"
      = persist_result sampleEntry "Q" ⟨[3], [1, 2, 3]⟩ "DATA_Q_SPACE"
          ⟨[3], [4, 5, 6]⟩ ⟨[2, 2], [0, 0, 0, 0]⟩ "Conversion to q-space" "q-space process" ∧
    keyCount (persist_result sampleEntry "Q" ⟨[3], [1, 2, 3]⟩ "DATA_Q_SPACE"
          ⟨[3], [4, 5, 6]⟩ ⟨[2, 2], [0, 0, 0, 0]⟩ "Conversion to q-space"
          "q-space process").groups (strUpper "DATA_Q_SPACE") = 1 ∧
    keyCount (persist_result sampleEntry "Q" ⟨[3], [1, 2, 3]⟩ "DATA_Q_SPACE"
          ⟨[3], [4, 5, 6]⟩ ⟨[2, 2], [0, 0, 0, 0]⟩ "Conversion to q-space"
          "q-space process").groups ("PROCESS_" ++ stripDataTag "DATA_Q_SPACE") = 1) :=
  ⟨by decide, by decide,
    c7_persist_idempotent sampleEntry "Q" ⟨[3], [1, 2, 3]⟩ "DATA_Q_SPACE"
      ⟨[3], [4, 5, 6]⟩ ⟨[2, 2], [0, 0, 0, 0]⟩ "Conversion to q-space" "q-space process"
      (by decide) (by decide)⟩

/-- C3: with the ROI lying inside both frames, the absolute-intensity
computation equals the specification's formulation: ROI sums over the
centered rectangles of `2*rx` by `2*ry` pixels around each frame's beam
center, rates obtained by dividing by the exposure times,
`transmission = sample rate / reference rate`,
`scaling = sample rate / (reference rate * transmission * thickness)`, and
the final array is the raw array scaled by that factor; the ROI rectangle
has exactly `2*ry` rows and `2*rx` columns. -/
theorem c3_absolute_intensity (raw db : List (List ℚ)) (bcx bcy bcxDb bcyDb : ℤ)
    (time timeDb thickness : ℚ) (rx ry : ℤ) (w wDb : ℕ)
    (hw : ∀ r ∈ raw, r.length = w) (hwDb : ∀ r ∈ db, r.length = wDb)
    (hrx : 0 ≤ rx) (hry : 0 ≤ ry)
    (hy0 : 0 ≤ bcy - ry) (hy1 : bcy + ry ≤ (raw.length : ℤ))
    (hx0 : 0 ≤ bcx - rx) (hx1 : bcx + rx ≤ (w : ℤ))
    (hy0Db : 0 ≤ bcyDb - ry) (hy1Db : bcyDb + ry ≤ (db.length : ℤ))
    (hx0Db : 0 ≤ bcxDb - rx) (hx1Db : bcxDb + rx ≤ (wDb : ℤ)) :
    absIntensity raw bcx bcy time db bcxDb bcyDb timeDb rx ry thickness
      = abs_intensity_spec raw bcx bcy time db bcxDb bcyDb timeDb rx ry thickness ∧
    (Finset.Ico (bcy - ry).toNat (bcy + ry).toNat).card = (2 * ry).toNat ∧
    (Finset.Ico (bcx - rx).toNat (bcx + rx).toNat).card = (2 * rx).toNat := by
  refine ⟨?_, ?_, ?_⟩
  · unfold absIntensity abs_intensity_spec
    rw [I_ROI_eq_spec raw bcx bcy rx ry w hw hrx hry hy0 hy1 hx0 hx1,
      I_ROI_eq_spec db bcxDb bcyDb rx ry wDb hwDb hrx hry hy0Db hy1Db hx0Db hx1Db]
  · rw [Nat.card_Ico]
    omega
  · rw [Nat.card_Ico]
    omega

/-- C3 witness: the equivalence at a concrete 2x2 sample frame and 2x2
direct-beam frame with beam centers (1, 1), ROI half-widths 1 and exposure
times 1 and 2. -/
theorem c3_absolute_intensity_witness :
    (∀ r ∈ [[(1 : ℚ), 2], [3, 4]], r.length = 2) ∧
    (∀ r ∈ [[(2 : ℚ), 0], [0, 2]], r.length = 2) ∧
    (0 : ℤ) ≤ 1 ∧ (0 : ℤ) ≤ 1 ∧
    (0 : ℤ) ≤ 1 - 1 ∧ (1 + 1 : ℤ) ≤ (([[(1 : ℚ), 2], [3, 4]].length : ℤ)) ∧
    (0 : ℤ) ≤ 1 - 1 ∧ (1 + 1 : ℤ) ≤ ((2 : ℕ) : ℤ) ∧
    (0 : ℤ) ≤ 1 - 1 ∧ (1 + 1 : ℤ) ≤ (([[(2 : ℚ), 0], [0, 2]].length : ℤ)) ∧
    (0 : ℤ) ≤ 1 - 1 ∧ (1 + 1 : ℤ) ≤ ((2 : ℕ) : ℤ) ∧
    (absIntensity [[(1 : ℚ), 2], [3, 4]] 1 1 1 [[(2 : ℚ), 0], [0, 2]] 1 1 2 1 1 5
        = abs_intensity_spec [[(1 : ℚ), 2], [3, 4]] 1 1 1 [[(2 : ℚ), 0], [0, 2]] 1 1 2 1 1 5 ∧
      (Finset.Ico ((1 : ℤ) - 1).toNat ((1 : ℤ) + 1).toNat).card = ((2 : ℤ) * 1).toNat ∧
      (Finset.Ico ((1 : ℤ) - 1).toNat ((1 : ℤ) + 1).toNat).card = ((2 : ℤ) * 1).toNat) :=
  ⟨by decide, by decide, by decide, by decide, by decide, by decide, by decide, by decide,
    by decide, by decide, by decide, by decide,
    c3_absolute_intensity [[(1 : ℚ), 2], [3, 4]] [[(2 : ℚ), 0], [0, 2]] 1 1 1 1 1 2 5 1 1 2 2
      (by decide) (by decide) (by decide) (by decide) (by decide) (by decide) (by decide)
      (by decide) (by decide) (by decide) (by decide) (by decide)⟩
